import Mathlib

/-!
Shallow embedding of the IntegrityOS pipeline-inspection analytics core and of
the risk-presentation helpers of its React frontend, with theorems settling the
frozen claims about them.

The repository ships only the frontend TypeScript sources; the backend engine
(`backend/ml_model.py`, `backend/app.py` in the README's architecture listing)
is not part of the source tree.  Definitions for the backend components are
therefore modelled from the specification (each is marked `Modelled from the
spec:`), while the frontend definitions are translated directly from the
TypeScript components under `src/frontend/src/components/`.

Numeric values are modelled as rationals (`ℚ`); dates as integer timestamps.
-/

namespace IntegrityOS

/-- Criticality label: `normal | medium | high` (spec §3, README `ml_label`). -/
inductive Label where
  | normal
  | medium
  | high
deriving DecidableEq, Repr

/-- Quality grade, ordinal `satisfactory < requires-attention < requires-action
< unacceptable` (spec §3). -/
inductive QualityGrade where
  | satisfactory
  | requiresAttention
  | requiresAction
  | unacceptable
deriving DecidableEq, Repr

/-- Grade mapped to ordinal 1–4 (spec §4.1 "quality-score"). -/
def qualityScoreOf : QualityGrade → ℚ
  | .satisfactory => 1
  | .requiresAttention => 2
  | .requiresAction => 3
  | .unacceptable => 4

/-- Modelled from the spec: one diagnostic record (spec §3 Observation, README
Diagnostics table).  Numeric coercion defaults are already applied, as
FeatureBuilder is total and defaults missing/invalid inputs to 0 (spec §4.1). -/
structure Observation where
  param1 : ℚ        -- defect depth (%)
  param2 : ℚ        -- defect length (mm)
  param3 : ℚ        -- defect width (mm)
  method : String
  defect_found : Bool
  quality_grade : QualityGrade
  temperature : ℚ
  humidity : ℚ
  illumination : ℚ

/-- The fixed set of volumetric/high-sensitivity (critical) inspection methods
(README §ML Model: UZK, RGK, MFL, UTWM, TFI). -/
def criticalMethods : List String := ["UZK", "RGK", "MFL", "UTWM", "TFI"]

/-- Clamp `x` into `[lo, hi]`. -/
def clampQ (lo hi x : ℚ) : ℚ := max lo (min hi x)

/-- The 15 ordered numeric feature fields (spec §4.1, README §ML Model). -/
structure FeatureVector where
  depth : ℚ
  length : ℚ
  width : ℚ
  quality_score : ℚ
  defect_found : ℚ
  defect_area : ℚ
  defect_volume : ℚ
  is_critical_method : ℚ
  temp_normalized : ℚ
  humidity_normalized : ℚ
  illumination_normalized : ℚ
  depth_to_area_ratio : ℚ
  shape_index : ℚ
  is_deep_defect : ℚ
  is_large_defect : ℚ

/-- Modelled from the spec: `FeatureBuilder.build` (spec §4.1), total and
failure-free; out-of-range condition values are clamped, divisions by zero are
guarded to 0. -/
def build (o : Observation) : FeatureVector :=
  let area := o.param2 * o.param3
  { depth := o.param1
    length := o.param2
    width := o.param3
    quality_score := qualityScoreOf o.quality_grade
    defect_found := if o.defect_found then 1 else 0
    defect_area := area
    defect_volume := o.param1 * area
    is_critical_method := if o.method ∈ criticalMethods then 1 else 0
    temp_normalized := clampQ (-1) 1 (o.temperature / 50)
    humidity_normalized := clampQ 0 1 (o.humidity / 100)
    illumination_normalized := clampQ 0 1 (o.illumination / 1000)
    depth_to_area_ratio := if area = 0 then 0 else o.param1 / area
    shape_index := if o.param3 = 0 then 0 else o.param2 / o.param3
    is_deep_defect := if o.param1 > 30 then 1 else 0
    is_large_defect := if area > 10000 then 1 else 0 }

/-- Depth threshold above which the rule stack assigns `high` (tuning constant,
spec §4.2 "a high threshold", §9). -/
def HIGH_DEPTH_THRESHOLD : ℚ := 50

/-- Depth threshold above which the rule stack assigns at least `medium`
(tuning constant, spec §4.2 "a medium threshold", §9). -/
def MEDIUM_DEPTH_THRESHOLD : ℚ := 30

/-- Area threshold for a "large" defect (spec §4.1: is-large-defect if area >
10,000 mm²). -/
def LARGE_AREA_THRESHOLD : ℚ := 10000

/-- Modelled from the spec: the deterministic rule stack of the fallback
classifier, evaluated in priority order (spec §4.2): defect not found →
`normal`; depth ≥ high threshold OR (area large AND method critical) → `high`;
depth ≥ medium threshold OR quality-score ≥ requires-action → `medium`; else
`normal`. -/
def ruleLabel (fv : FeatureVector) : Label :=
  if fv.defect_found = 0 then .normal
  else if HIGH_DEPTH_THRESHOLD ≤ fv.depth ∨
      (LARGE_AREA_THRESHOLD < fv.defect_area ∧ fv.is_critical_method = 1) then .high
  else if MEDIUM_DEPTH_THRESHOLD ≤ fv.depth ∨ 3 ≤ fv.quality_score then .medium
  else .normal

/-- `normal`-class probability of the smoothed one-hot triple the fallback
produces (spec §4.2 "one-hot with small smoothing"). -/
def pNormalOf : Label → ℚ
  | .normal => 8/10
  | _ => 1/10

/-- `medium`-class probability of the smoothed one-hot triple. -/
def pMediumOf : Label → ℚ
  | .medium => 8/10
  | _ => 1/10

/-- `high`-class probability of the smoothed one-hot triple. -/
def pHighOf : Label → ℚ
  | .high => 8/10
  | _ => 1/10

/-- Which path produced a classification (spec §3 method-used tag). -/
inductive MethodTag where
  | machine_learning
  | rule_based
deriving DecidableEq, Repr

/-- Classification output (spec §3 ClassificationResult): label, three class
probabilities, confidence = max probability, method-used tag. -/
structure ClassificationResult where
  label : Label
  pNormal : ℚ
  pMedium : ℚ
  pHigh : ℚ
  confidence : ℚ
  methodUsed : MethodTag

/-- Modelled from the spec: the rule-based fallback path of
`CriticalityClassifier.predict` (spec §4.2), producing the smoothed one-hot
probability triple for the rule label. -/
def ruleClassify (o : Observation) : ClassificationResult :=
  let l := ruleLabel (build o)
  { label := l
    pNormal := pNormalOf l
    pMedium := pMediumOf l
    pHigh := pHighOf l
    confidence := max (pNormalOf l) (max (pMediumOf l) (pHighOf l))
    methodUsed := .rule_based }

/-- Modelled from the spec: `CriticalityClassifier.predict` (spec §4.2).  The
trained state is an ensemble of decision trees, each voting a label on the
15-feature vector; class probabilities are vote proportions.  With no trained
state (empty ensemble) the deterministic rule fallback is used. -/
def predict (forest : List (FeatureVector → Label)) (o : Observation) :
    ClassificationResult :=
  match forest with
  | [] => ruleClassify o
  | t :: ts =>
    let fv := build o
    let votes := (t :: ts).map (fun tree => tree fv)
    let n : ℚ := votes.length
    let vN : ℚ := votes.count .normal
    let vM : ℚ := votes.count .medium
    let vH : ℚ := votes.count .high
    let lab := if vM ≤ vH ∧ vN ≤ vH then Label.high
      else if vN ≤ vM then Label.medium else Label.normal
    { label := lab
      pNormal := vN / n
      pMedium := vM / n
      pHigh := vH / n
      confidence := max (vN / n) (max (vM / n) (vH / n))
      methodUsed := .machine_learning }

/-- Every element of a list of labels is counted by exactly one of the three
class counters. -/
lemma count_labels_eq_length (l : List Label) :
    l.count .normal + l.count .medium + l.count .high = l.length := by
  induction l with
  | nil => rfl
  | cons a l ih =>
    cases a <;> simp [List.count_cons] <;> omega

lemma ruleClassify_pNormal (o : Observation) :
    (ruleClassify o).pNormal = pNormalOf (ruleLabel (build o)) := rfl

lemma ruleClassify_pMedium (o : Observation) :
    (ruleClassify o).pMedium = pMediumOf (ruleLabel (build o)) := rfl

lemma ruleClassify_pHigh (o : Observation) :
    (ruleClassify o).pHigh = pHighOf (ruleLabel (build o)) := rfl

lemma predict_cons_pNormal (t : FeatureVector → Label)
    (ts : List (FeatureVector → Label)) (o : Observation) :
    (predict (t :: ts) o).pNormal =
      (((t :: ts).map (fun tree => tree (build o))).count Label.normal : ℚ) /
        (((t :: ts).map (fun tree => tree (build o))).length : ℚ) := rfl

lemma predict_cons_pMedium (t : FeatureVector → Label)
    (ts : List (FeatureVector → Label)) (o : Observation) :
    (predict (t :: ts) o).pMedium =
      (((t :: ts).map (fun tree => tree (build o))).count Label.medium : ℚ) /
        (((t :: ts).map (fun tree => tree (build o))).length : ℚ) := rfl

lemma predict_cons_pHigh (t : FeatureVector → Label)
    (ts : List (FeatureVector → Label)) (o : Observation) :
    (predict (t :: ts) o).pHigh =
      (((t :: ts).map (fun tree => tree (build o))).count Label.high : ℚ) /
        (((t :: ts).map (fun tree => tree (build o))).length : ℚ) := rfl

/-- C1: for every Observation classified by either path, the three class
probabilities of the resulting ClassificationResult each lie in [0,1] and sum
to 1 within an absolute tolerance of 1e-6. -/
theorem classification_probs_valid (forest : List (FeatureVector → Label))
    (o : Observation) :
    (0 ≤ (predict forest o).pNormal ∧ (predict forest o).pNormal ≤ 1) ∧
    (0 ≤ (predict forest o).pMedium ∧ (predict forest o).pMedium ≤ 1) ∧
    (0 ≤ (predict forest o).pHigh ∧ (predict forest o).pHigh ≤ 1) ∧
    |(predict forest o).pNormal + (predict forest o).pMedium +
        (predict forest o).pHigh - 1| ≤ 1/1000000 := by
  cases forest with
  | nil =>
    have hr : predict [] o = ruleClassify o := rfl
    rw [hr, ruleClassify_pNormal, ruleClassify_pMedium, ruleClassify_pHigh]
    cases ruleLabel (build o) <;>
      simp [pNormalOf, pMediumOf, pHighOf] <;> norm_num
  | cons t ts =>
    rw [predict_cons_pNormal, predict_cons_pMedium, predict_cons_pHigh]
    set L := (t :: ts).map (fun tree => tree (build o)) with hL
    have hlen : 0 < L.length := by simp [hL]
    have hn : (0 : ℚ) < (L.length : ℚ) := by exact_mod_cast hlen
    have hcN : (L.count Label.normal : ℚ) ≤ (L.length : ℚ) := by
      exact_mod_cast List.count_le_length _ _
    have hcM : (L.count Label.medium : ℚ) ≤ (L.length : ℚ) := by
      exact_mod_cast List.count_le_length _ _
    have hcH : (L.count Label.high : ℚ) ≤ (L.length : ℚ) := by
      exact_mod_cast List.count_le_length _ _
    have hsum : (L.count Label.normal : ℚ) + (L.count Label.medium : ℚ) +
        (L.count Label.high : ℚ) = (L.length : ℚ) := by
      exact_mod_cast count_labels_eq_length L
    have hone : (L.count Label.normal : ℚ) / L.length +
        (L.count Label.medium : ℚ) / L.length +
        (L.count Label.high : ℚ) / L.length = 1 := by
      rw [div_add_div_same, div_add_div_same, hsum, div_self hn.ne']
    refine ⟨⟨?_, ?_⟩, ⟨?_, ?_⟩, ⟨?_, ?_⟩, ?_⟩
    · exact div_nonneg (by positivity) hn.le
    · rw [div_le_one hn]; exact hcN
    · exact div_nonneg (by positivity) hn.le
    · rw [div_le_one hn]; exact hcM
    · exact div_nonneg (by positivity) hn.le
    · rw [div_le_one hn]; exact hcH
    · rw [hone]; norm_num

/-- Characterization of the rule label on an observation whose depth field has
been replaced, in terms of the raw observation fields. -/
lemma ruleLabel_build_update (o : Observation) (d : ℚ) :
    ruleLabel (build { o with param1 := d }) =
      if o.defect_found = false then .normal
      else if 50 ≤ d ∨ (10000 < o.param2 * o.param3 ∧ o.method ∈ criticalMethods)
        then .high
      else if 30 ≤ d ∨ 3 ≤ qualityScoreOf o.quality_grade then .medium
      else .normal := by
  cases hdf : o.defect_found <;> by_cases hm : o.method ∈ criticalMethods <;>
    simp [ruleLabel, build, hdf, hm, HIGH_DEPTH_THRESHOLD,
      MEDIUM_DEPTH_THRESHOLD, LARGE_AREA_THRESHOLD]

/-- If the rule stack assigns `high` at depth `d1`, it still assigns `high` at
any depth `d2 ≥ d1` (with all other observation fields fixed). -/
lemma ruleLabel_high_mono (o : Observation) (d1 d2 : ℚ) (h : d1 ≤ d2)
    (hh : ruleLabel (build { o with param1 := d1 }) = .high) :
    ruleLabel (build { o with param1 := d2 }) = .high := by
  rw [ruleLabel_build_update] at hh ⊢
  by_cases hdf : o.defect_found = false
  · simp [hdf] at hh
  · simp only [hdf, if_false] at hh ⊢
    by_cases hB : 50 ≤ d1 ∨ (10000 < o.param2 * o.param3 ∧ o.method ∈ criticalMethods)
    · rcases hB with h50 | hC
      · have h50b : 50 ≤ d2 := le_trans h50 h
        simp [h50b]
      · simp [hC]
    · rw [if_neg hB] at hh
      split_ifs at hh

/-- C3: in the rule-based fallback, the `high` class probability is
monotonically non-decreasing in depth (`param1`) with all other observation
fields held fixed. -/
theorem fallback_high_prob_monotone (o : Observation) (d1 d2 : ℚ) (h : d1 ≤ d2) :
    (ruleClassify { o with param1 := d1 }).pHigh ≤
      (ruleClassify { o with param1 := d2 }).pHigh := by
  rw [ruleClassify_pHigh, ruleClassify_pHigh]
  by_cases hh : ruleLabel (build { o with param1 := d1 }) = Label.high
  · rw [hh, ruleLabel_high_mono o d1 d2 h hh]
  · have h1 : pHighOf (ruleLabel (build { o with param1 := d1 })) = 1/10 := by
      cases hl : ruleLabel (build { o with param1 := d1 }) <;> simp_all [pHighOf]
    rw [h1]
    cases ruleLabel (build { o with param1 := d2 }) <;> norm_num [pHighOf]

/-- The spec §8 end-to-end scenario observation: depth 45, length 150, width
80, high-sensitivity method, defect found, grade requires-action. -/
def sampleObs : Observation :=
  { param1 := 45, param2 := 150, param3 := 80, method := "UZK",
    defect_found := true, quality_grade := .requiresAction,
    temperature := 20, humidity := 50, illumination := 500 }

/-- Witness for C3 at depths 10 ≤ 60 on the sample observation. -/
theorem fallback_high_prob_monotone_witness :
    (ruleClassify { sampleObs with param1 := 10 }).pHigh ≤
      (ruleClassify { sampleObs with param1 := 60 }).pHigh :=
  fallback_high_prob_monotone sampleObs 10 60 (by norm_num)

/-- Qualitative trend direction (spec §3). -/
inductive Direction where
  | increasing
  | decreasing
  | stable
deriving DecidableEq, Repr

/-- Trend estimate over one object's (time, depth) history (spec §3). -/
structure TrendEstimate where
  slope : ℚ
  intercept : ℚ
  current_depth : ℚ
  projected_depth_next_period : ℚ
  direction : Direction
deriving DecidableEq, Repr

/-- The small positive epsilon separating `stable` from a real trend
(spec §4.3, tuning constant). -/
def SLOPE_EPS : ℚ := 1/100

/-- Direction tag from the fitted slope (spec §4.3): `increasing` if slope >
epsilon, `decreasing` if slope < -epsilon, else `stable`. -/
def directionOf (slope : ℚ) : Direction :=
  if slope > SLOPE_EPS then .increasing
  else if slope < -SLOPE_EPS then .decreasing
  else .stable

/-- Modelled from the spec: `TrendEstimator.estimate` (spec §4.3).  Fits an
ordinary least-squares line depth = a·t + b over the (time, depth) pairs;
`current_depth` is the last observed depth; the projection evaluates the
fitted line one period past the last observation, clamped to [0, 100].  An
empty series yields no estimate; a single point degenerates to slope 0 with
both depths equal to that point's value, tagged `stable`. -/
def estimate (series : List (ℚ × ℚ)) : Option TrendEstimate :=
  match series with
  | [] => none
  | [(_, d)] => some ⟨0, d, d, d, .stable⟩
  | p :: q :: rest =>
    let l := p :: q :: rest
    let n : ℚ := l.length
    let sT := (l.map Prod.fst).sum
    let sD := (l.map Prod.snd).sum
    let sTD := (l.map (fun x => x.1 * x.2)).sum
    let sTT := (l.map (fun x => x.1 * x.1)).sum
    let den := n * sTT - sT * sT
    let slope := if den = 0 then 0 else (n * sTD - sT * sD) / den
    let b := (sD - slope * sT) / n
    let last := (q :: rest).getLast (by simp)
    let proj := clampQ 0 100 (slope * (last.1 + 1) + b)
    some ⟨slope, b, last.2, proj, directionOf slope⟩

/-- C4: on the series [(0,10),(1,20),(2,30)] the estimator returns slope 10,
projection 40 (the OLS line at one period past the last observation, within
the [0,100] clamp) and direction `increasing`. -/
theorem estimate_example_series :
    estimate [(0, 10), (1, 20), (2, 30)] =
      some ⟨10, 10, 30, 40, .increasing⟩ := by
  norm_num [estimate, directionOf, clampQ, SLOPE_EPS]

/-- C5: a single-point series [(t, d)] yields the degenerate estimate: slope
0, current and projected depth both d, direction `stable` — and never an
error (the result is `some`). -/
theorem estimate_single_point (t d : ℚ) :
    estimate [(t, d)] = some ⟨0, d, d, d, .stable⟩ := rfl

/-- Depth at which the base failure probability ramp reaches 1 (tuning
constant, spec §4.4 "a high-severity threshold"). -/
def SEVERITY_DEPTH : ℚ := 70

/-- Risk band exposed with the probability so callers can localize
consistently (spec §4.4); thresholds follow the presentation bands used by
the frontend (0.6 / 0.3). -/
inductive RiskBand where
  | low
  | medium
  | high
deriving DecidableEq, Repr

/-- Band of a probability: high above 0.6, medium above 0.3, else low. -/
def bandOf (p : ℚ) : RiskBand :=
  if p > 6/10 then .high else if p > 3/10 then .medium else .low

/-- Risk forecast for one object (spec §3): probability in [0,1], the trend it
was derived from, and the message band. -/
structure RiskForecast where
  probability : ℚ
  trend : TrendEstimate
  band : RiskBand

/-- Base probability: piecewise-linear ramp from 0 at depth 0 to 1 at depth ≥
the severity threshold (spec §4.4). -/
def baseProb (depth : ℚ) : ℚ := clampQ 0 1 (depth / SEVERITY_DEPTH)

/-- Fixed bonus for a worsening trend, malus for an improving one
(spec §4.4). -/
def directionBonus : Direction → ℚ
  | .increasing => 15/100
  | .decreasing => -(15/100)
  | .stable => 0

/-- Repeated defect findings with a high-sensitivity method among the recent
observations (spec §4.4). -/
def repeatedCriticalDefects (recent : List Observation) : Bool :=
  2 ≤ (recent.filter
    (fun o => o.defect_found && decide (o.method ∈ criticalMethods))).length

/-- Modelled from the spec: `RiskForecaster.forecast` (spec §4.4).  Base ramp
over the projected depth, adjusted by the direction bonus and the
repeated-critical-defect bonus, clamped to [0,1]. -/
def forecast (t : TrendEstimate) (recent : List Observation) : RiskForecast :=
  let raw := baseProb t.projected_depth_next_period + directionBonus t.direction +
    (if repeatedCriticalDefects recent then 1/10 else 0)
  let p := clampQ 0 1 raw
  { probability := p, trend := t, band := bandOf p }

/-- C2: the forecast probability lies in [0,1] for every trend estimate,
however extreme its slope or projection, and every defect history. -/
theorem forecast_probability_in_unit_interval (t : TrendEstimate)
    (recent : List Observation) :
    0 ≤ (forecast t recent).probability ∧ (forecast t recent).probability ≤ 1 := by
  have hp : (forecast t recent).probability =
      clampQ 0 1 (baseProb t.projected_depth_next_period + directionBonus t.direction +
        (if repeatedCriticalDefects recent then 1/10 else 0)) := rfl
  rw [hp]
  unfold clampQ
  constructor
  · exact le_max_left _ _
  · exact max_le (by norm_num) (min_le_left _ _)

/-- Recommendation for one object (spec §3): next inspection date (an integer
timestamp in days), recommended method, urgency rank key. -/
structure Recommendation where
  next_inspection_date : ℤ
  recommended_method : String
  urgency : ℚ

/-- Inspection interval in days, shrinking monotonically as the probability
increases (spec §4.5: high risk → 3–6 months, low risk → 12–24 months). -/
def intervalDays (p : ℚ) : ℕ :=
  if p > 7/10 then 90
  else if p > 4/10 then 180
  else if p > 2/10 then 365
  else 730

/-- Fixed preference order of high-sensitivity methods (spec §4.5). -/
def preferredMethods : List String := ["UZK", "MFL", "RGK"]

/-- Method choice: first preferred method different from the one used at the
immediately preceding inspection, unless none remains (spec §4.5). -/
def recommendedMethodFor (lastMethod : String) : String :=
  match preferredMethods.filter (fun m => m ≠ lastMethod) with
  | [] => "UZK"
  | m :: _ => m

/-- Modelled from the spec: `RecommendationEngine.recommend` (spec §4.5).
The next inspection date is the last observation date plus the
probability-dependent interval. -/
def recommend (risk : RiskForecast) (last_observation_date : ℤ)
    (lastMethod : String) : Recommendation :=
  { next_inspection_date := last_observation_date + intervalDays risk.probability
    recommended_method := recommendedMethodFor lastMethod
    urgency := risk.probability }

/-- C6: the recommended next inspection date is never earlier than the last
observation date. -/
theorem recommend_date_not_in_past (risk : RiskForecast)
    (last_observation_date : ℤ) (lastMethod : String) :
    last_observation_date ≤
      (recommend risk last_observation_date lastMethod).next_inspection_date := by
  have h : (recommend risk last_observation_date lastMethod).next_inspection_date =
      last_observation_date + (intervalDays risk.probability : ℤ) := rfl
  rw [h]
  have : (0 : ℤ) ≤ (intervalDays risk.probability : ℤ) := Int.ofNat_nonneg _
  omega

/-- Per-pipeline rollup (spec §3 PipelineForecast). -/
structure PipelineForecast where
  critical_object_count : ℕ
  defect_rate : ℚ
  predicted_defect_count_next_period : ℤ
deriving DecidableEq, Repr

/-- Probability above which an object counts as critical (spec §4.6, matching
the high band threshold). -/
def HIGH_RISK_THRESHOLD : ℚ := 6/10

/-- Modelled from the spec: `PipelineAggregator.aggregate` (spec §4.6).
Critical count over the object forecast probabilities, guarded defect rate
over the pipeline's observations, expected defect count next period as the
rounded sum of probabilities. -/
def aggregate (object_forecasts : List ℚ) (observations : List Observation) :
    PipelineForecast :=
  { critical_object_count :=
      (object_forecasts.filter (fun p => HIGH_RISK_THRESHOLD < p)).length
    defect_rate :=
      if observations.length = 0 then 0
      else ((observations.filter (fun o => o.defect_found)).length : ℚ) /
        (observations.length : ℚ)
    predicted_defect_count_next_period := round object_forecasts.sum }

/-- C7: with zero observations and zero object forecasts the aggregate is all
zeros — the defect-rate division is guarded, not failing. -/
theorem aggregate_empty :
    aggregate [] [] =
      { critical_object_count := 0, defect_rate := 0,
        predicted_defect_count_next_period := 0 } := by
  simp [aggregate]

namespace Predictions

/-- From `src/frontend/src/components/Predictions.tsx` (getRiskColor): red
above 0.6, orange above 0.3, else green. -/
def getRiskColor (risk : ℚ) : String :=
  if risk > 6/10 then "#ef4444"
  else if risk > 3/10 then "#f59e0b"
  else "#10b981"

/-- From `Predictions.tsx` (getRiskLabel): Высокий above 0.6, Средний above
0.3, else Низкий. -/
def getRiskLabel (risk : ℚ) : String :=
  if risk > 6/10 then "Высокий"
  else if risk > 3/10 then "Средний"
  else "Низкий"

/-- From `Predictions.tsx` (modal risk banding, lines 303–306): message
background color by the same probability thresholds. -/
def modalBackground (risk : ℚ) : String :=
  if risk > 6/10 then "#fee2e2"
  else if risk > 3/10 then "#fef3c7"
  else "#d1fae5"

/-- C8: the presented risk band is a function of probability alone with fixed
thresholds — label Высокий iff p > 0.6, Средний iff 0.3 < p ≤ 0.6, Низкий iff
p ≤ 0.3 — and `getRiskColor` assigns the same band as `getRiskLabel` (red iff
Высокий, orange iff Средний, green iff Низкий). -/
theorem risk_banding_consistent (p : ℚ) :
    (getRiskLabel p = "Высокий" ↔ p > 6/10) ∧
    (getRiskLabel p = "Средний" ↔ (3/10 < p ∧ p ≤ 6/10)) ∧
    (getRiskLabel p = "Низкий" ↔ p ≤ 3/10) ∧
    (getRiskColor p = "#ef4444" ↔ getRiskLabel p = "Высокий") ∧
    (getRiskColor p = "#f59e0b" ↔ getRiskLabel p = "Средний") ∧
    (getRiskColor p = "#10b981" ↔ getRiskLabel p = "Низкий") := by
  unfold getRiskLabel getRiskColor
  by_cases h1 : p > 6/10 <;> by_cases h2 : p > 3/10 <;>
    simp [h1, h2] <;> linarith

end Predictions

namespace MapView

/-- From `src/frontend/src/components/MapView.tsx` (getMarkerColor): marker
color by `ml_label`, defaulting to neutral gray for any other string. -/
def getMarkerColor (mlLabel : String) : String :=
  if mlLabel = "high" then "#e74c3c"
  else if mlLabel = "medium" then "#f39c12"
  else if mlLabel = "normal" then "#2ecc71"
  else "#95a5a6"

/-- C10: `getMarkerColor` is total over all strings — it always returns one of
exactly four fixed colors, and every label outside {high, medium, normal}
(the empty string included) maps to the neutral default color. -/
theorem getMarkerColor_total (s : String) :
    (getMarkerColor s = "#e74c3c" ∨ getMarkerColor s = "#f39c12" ∨
      getMarkerColor s = "#2ecc71" ∨ getMarkerColor s = "#95a5a6") ∧
    (s ∉ (["high", "medium", "normal"] : List String) →
      getMarkerColor s = "#95a5a6") := by
  unfold getMarkerColor
  constructor
  · split_ifs <;> simp
  · intro hs
    simp only [List.mem_cons, List.not_mem_nil, or_false] at hs
    push_neg at hs
    rw [if_neg hs.1, if_neg hs.2.1, if_neg hs.2.2]

/-- Witness for C10: the empty string is outside the known labels and renders
with the neutral gray marker color. -/
theorem getMarkerColor_total_witness :
    ("" ∉ (["high", "medium", "normal"] : List String)) ∧
      getMarkerColor "" = "#95a5a6" :=
  ⟨by decide, (getMarkerColor_total "").2 (by decide)⟩

end MapView

namespace ObjectDetail

/-- One fetched diagnostics record as the sorting in
`src/frontend/src/components/ObjectDetail.tsx` consumes it: `dateTime` stands
for `new Date(diag.date).getTime()` (the record's date timestamp) and
`param1` is the optional defect depth (`a.param1 || 0` treats a missing value
as 0). -/
structure Diagnostic where
  diag_id : ℕ
  dateTime : ℤ
  param1 : Option ℚ

/-- Sort field state (`sortBy` in ObjectDetail.tsx). -/
inductive SortBy where
  | date
  | depth
deriving DecidableEq, Repr

/-- Sort direction state (`sortOrder` in ObjectDetail.tsx). -/
inductive SortOrder where
  | asc
  | desc
deriving DecidableEq, Repr

/-- The numeric key the selected sort field reads from a record. -/
def sortKey : SortBy → Diagnostic → ℚ
  | .date, a => (a.dateTime : ℚ)
  | .depth, a => a.param1.getD 0

/-- From `ObjectDetail.tsx` lines 52–63: the comparator passed to
`[...diagnostics].sort`, returning the signed key difference per the selected
field and order. -/
def diagCmp (sb : SortBy) (so : SortOrder) (a b : Diagnostic) : ℚ :=
  match sb with
  | .depth =>
    let depthA := a.param1.getD 0
    let depthB := b.param1.getD 0
    match so with
    | .desc => depthB - depthA
    | .asc => depthA - depthB
  | .date =>
    let dateA := a.dateTime
    let dateB := b.dateTime
    match so with
    | .desc => ((dateB - dateA : ℤ) : ℚ)
    | .asc => ((dateA - dateB : ℤ) : ℚ)

instance (sb : SortBy) (so : SortOrder) :
    DecidableRel (fun a b => diagCmp sb so a b ≤ 0) :=
  fun a b => inferInstanceAs (Decidable (diagCmp sb so a b ≤ 0))

/-- `sortedDiagnostics` from `ObjectDetail.tsx`: the fetched array, copied and
sorted by the comparator.  JavaScript `Array.prototype.sort` guarantees a
permutation ordered consistently with the comparator; the copy (`[...]`
spread) leaves the original array untouched, which the pure embedding
reflects. -/
def sortedDiagnostics (sb : SortBy) (so : SortOrder)
    (diagnostics : List Diagnostic) : List Diagnostic :=
  List.insertionSort (fun a b => diagCmp sb so a b ≤ 0) diagnostics

/-- The ordering the selected sort state induces on keys: ascending or
descending. -/
def keyOrder : SortOrder → ℚ → ℚ → Prop
  | .asc, x, y => x ≤ y
  | .desc, x, y => y ≤ x

/-- A non-positive comparator value is exactly the selected key order. -/
lemma diagCmp_nonpos_iff (sb : SortBy) (so : SortOrder) (a b : Diagnostic) :
    diagCmp sb so a b ≤ 0 ↔ keyOrder so (sortKey sb a) (sortKey sb b) := by
  cases sb <;> cases so <;>
    simp [diagCmp, keyOrder, sortKey, sub_nonpos, Int.cast_le]

/-- C9: for every sort state and fetched diagnostics list, the sorted view is
a permutation of the input (no record added, dropped, or duplicated) that is
non-strictly ordered by the selected key — date timestamp or depth with
missing depth read as 0 — ascending for `asc` and descending for `desc`. -/
theorem sortedDiagnostics_perm_and_sorted (sb : SortBy) (so : SortOrder)
    (diagnostics : List Diagnostic) :
    (sortedDiagnostics sb so diagnostics).Perm diagnostics ∧
    (sortedDiagnostics sb so diagnostics).Pairwise
      (fun a b => keyOrder so (sortKey sb a) (sortKey sb b)) := by
  constructor
  · exact List.perm_insertionSort _ _
  · have ht : IsTotal Diagnostic (fun a b => diagCmp sb so a b ≤ 0) := by
      constructor
      intro a b
      rw [diagCmp_nonpos_iff, diagCmp_nonpos_iff]
      cases so <;> simp [keyOrder] <;> exact le_total _ _
    have htr : IsTrans Diagnostic (fun a b => diagCmp sb so a b ≤ 0) := by
      constructor
      intro a b c hab hbc
      rw [diagCmp_nonpos_iff] at hab hbc ⊢
      cases so <;> simp [keyOrder] at hab hbc ⊢
      · exact le_trans hab hbc
      · exact le_trans hbc hab
    have hs : List.Sorted (fun a b => diagCmp sb so a b ≤ 0)
        (sortedDiagnostics sb so diagnostics) :=
      List.sorted_insertionSort _ _
    exact hs.imp (fun hab => (diagCmp_nonpos_iff _ _ _ _).mp hab)

end ObjectDetail

end IntegrityOS
